import Mathlib

/-!
Verification of the py_trees blackboard module
(src/py_trees/src/py_trees/blackboard.py).

The file gives a shallow embedding of the module: Python values stored on
the blackboard become an inductive type, the Borg-shared `Blackboard.__dict__`
becomes an insertion-ordered association list, and each method of the module
becomes a Lean function on that state.  Theorems about the embedding settle
the claims of the specification.
-/

namespace PyTrees

mutual
/-- Python values that can be stored on the blackboard.  An `obj` carries its
instance attributes as an ordered field list, which is how nested attribute
access (`operator.attrgetter`) reaches into stored values. -/
inductive PyValue : Type where
  | pyNone
  | pyBool (b : Bool)
  | pyInt (n : Int)
  | pyStr (s : String)
  | obj (fields : PyFields)
inductive PyFields : Type where
  | nil
  | cons (name : String) (value : PyValue) (rest : PyFields)
end

deriving instance DecidableEq for PyValue

deriving instance DecidableEq for PyFields

/-- Attribute lookup inside an object's field list (Python `getattr` on a
plain object, hitting its `__dict__`). -/
def PyFields.lookup : PyFields → String → Option PyValue
  | .nil, _ => Option.none
  | .cons n v rest, key => if n = key then some v else rest.lookup key

/-- Python `str.split(sep)` for a one-character separator, accumulator form. -/
def splitCharGo (sep : Char) : List Char → List Char → List String
  | [], acc => [String.mk acc.reverse]
  | c :: cs, acc =>
    if c = sep then String.mk acc.reverse :: splitCharGo sep cs []
    else splitCharGo sep cs (c :: acc)

/-- Python `str.split(sep)` for a one-character separator. -/
def splitChar (sep : Char) (s : String) : List String :=
  splitCharGo sep s.data []

/-- Python `sep.join(parts)` for a one-character separator. -/
def joinChar (sep : Char) : List String → String
  | [] => ""
  | [s] => s
  | s :: rest => s ++ String.singleton sep ++ joinChar sep rest

/-- Python `sep in s` for a one-character separator. -/
def containsChar (sep : Char) (s : String) : Bool :=
  s.data.any (fun c => c = sep)

/-- The Borg-shared `Blackboard.__dict__`: one process-wide insertion-ordered
mapping from attribute names to values. -/
abbrev Store := List (String × PyValue)

/-- Python dict/attribute lookup on the blackboard's `__dict__`
(`getattr(blackboard, name)`): the key is matched verbatim. -/
def storeLookup : Store → String → Option PyValue
  | [], _ => Option.none
  | (k, v) :: rest, key => if k = key then some v else storeLookup rest key

/-- Python `setattr(blackboard, name, value)`: overwrite in place when the key
exists (a dict keeps the key's position), append otherwise. -/
def storeSet : Store → String → PyValue → Store
  | [], name, value => [(name, value)]
  | (k, v) :: rest, name, value =>
    if k = name then (k, value) :: rest else (k, v) :: storeSet rest name value

/-- Blackboard.set (blackboard.py lines 64-76).  With `overwrite=False` a
successful `getattr` short-circuits to `False`; otherwise `setattr` runs and
the method returns `True`. -/
def Blackboard_set (bb : Store) (name : String) (value : PyValue)
    (overwrite : Bool) : Store × Bool :=
  if overwrite = false ∧ (storeLookup bb name).isSome then (bb, false)
  else (storeSet bb name value, true)

/-- Blackboard.get (blackboard.py lines 78-86): `getattr(self, name)` with the
name matched verbatim against `__dict__`; an `AttributeError` is swallowed and
`None` returned.  A stored `None` and a missing name are indistinguishable. -/
def Blackboard_get (bb : Store) (name : String) : PyValue :=
  match storeLookup bb name with
  | some v => v
  | Option.none => PyValue.pyNone

/-- Python `getattr(v, name)` on a stored value: reaches an object's fields;
any other value raises `AttributeError` for the user-chosen names at hand
(modelled as `none`). -/
def getattrF : PyValue → String → Option PyValue
  | .obj fields, name => fields.lookup name
  | _, _ => Option.none

/-- operator.attrgetter(path) applied to the blackboard: the path splits on
dots, the first component is looked up on the blackboard's `__dict__`, the
remaining components chain `getattr` through the stored value. -/
def attrgetterGet (bb : Store) (path : String) : Option PyValue :=
  match splitChar '.' path with
  | [] => Option.none
  | p :: ps => ps.foldl (fun acc name => acc.bind (fun v => getattrF v name)) (storeLookup bb p)

/-- Path resolution of SubBlackboard.update_sub_blackboard (lines 131-140):
an attr containing a slash is rewritten `".".join(attr.split('/'))` and fed to
`operator.attrgetter`; otherwise `attrgetter(attr)` runs directly (which still
splits on dots). -/
def subAttrResolve (bb : Store) (attr : String) : Option PyValue :=
  if containsChar '/' attr then attrgetterGet bb (joinChar '.' (splitChar '/' attr))
  else attrgetterGet bb attr

/-- Modelled from the spec: common.Status, the outcome enumeration of one tick
(`{SUCCESS, FAILURE, RUNNING, INVALID}`); the common module is not part of the
sources, only its members are referenced by blackboard.py. -/
inductive Status : Type where
  | success
  | failure
  | running
  | invalid
deriving DecidableEq

/-- Modelled from the spec: common.ClearingPolicy, the enumeration
`{ON_INITIALISE, ON_SUCCESS}` governing when a cached decision is discarded;
the common module is not part of the sources. -/
inductive ClearingPolicy : Type where
  | onInitialise
  | onSuccess
deriving DecidableEq

/-- Construction-time configuration shared by CheckBlackboardVariable and
WaitForBlackboardVariable (name, expected value, comparison operator,
clearing policy).  `expected_value = none` models Python `None`, requesting an
existence-only check. -/
structure CheckConfig : Type where
  variable_name : String
  expected_value : Option PyValue
  comparison_operator : PyValue → PyValue → Bool
  clearing_policy : ClearingPolicy

/-- Fresh evaluation inside CheckBlackboardVariable.update (lines 361-384):
`attrgetter(variable_name)` on the blackboard; absence gives FAILURE, presence
with no expected value gives SUCCESS, otherwise the comparison operator
decides between SUCCESS and FAILURE. -/
def check_evaluate (bb : Store) (cfg : CheckConfig) : Status :=
  match attrgetterGet bb cfg.variable_name with
  | Option.none => Status.failure
  | some value =>
    match cfg.expected_value with
    | Option.none => Status.success
    | some e => if cfg.comparison_operator value e then Status.success else Status.failure

/-- CheckBlackboardVariable.update (lines 356-390).  A cached matching_result
is returned unchanged; otherwise the variable is re-evaluated and the result
cached, except that a SUCCESS under ON_SUCCESS leaves the cache unset. -/
def CheckBlackboardVariable_update (bb : Store) (cfg : CheckConfig)
    (matching_result : Option Status) : Status × Option Status :=
  match matching_result with
  | some r => (r, some r)
  | Option.none =>
    let result := check_evaluate bb cfg
    if result = Status.success ∧ cfg.clearing_policy = ClearingPolicy.onSuccess then
      (result, Option.none)
    else
      (result, some result)

/-- CheckBlackboardVariable.initialise (lines 347-354): the cache is cleared
exactly under the ON_INITIALISE policy. -/
def CheckBlackboardVariable_initialise (cfg : CheckConfig)
    (matching_result : Option Status) : Option Status :=
  if cfg.clearing_policy = ClearingPolicy.onInitialise then Option.none
  else matching_result

/-- CheckBlackboardVariable.terminate (lines 392-398): the cache is cleared
exactly when the new status is INVALID. -/
def CheckBlackboardVariable_terminate (new_status : Status)
    (matching_result : Option Status) : Option Status :=
  if new_status = Status.invalid then Option.none else matching_result

/-- Fresh evaluation inside WaitForBlackboardVariable.update (lines 445-465):
`hasattr`/`getattr` with the variable name matched verbatim (no attrgetter
here); absence gives RUNNING, presence with no expected value gives SUCCESS,
otherwise the comparison decides between SUCCESS and RUNNING. -/
def wait_evaluate (bb : Store) (cfg : CheckConfig) : Status :=
  match storeLookup bb cfg.variable_name with
  | Option.none => Status.running
  | some value =>
    match cfg.expected_value with
    | Option.none => Status.success
    | some e => if cfg.comparison_operator value e then Status.success else Status.running

/-- WaitForBlackboardVariable.update (lines 440-471).  A cached
matching_result is returned unchanged; otherwise the variable is re-evaluated;
SUCCESS under ON_SUCCESS leaves the cache unset, any other non-RUNNING result
is cached, and on RUNNING the cache is left as it was (unset here). -/
def WaitForBlackboardVariable_update (bb : Store) (cfg : CheckConfig)
    (matching_result : Option Status) : Status × Option Status :=
  match matching_result with
  | some r => (r, some r)
  | Option.none =>
    let result := wait_evaluate bb cfg
    if result = Status.success ∧ cfg.clearing_policy = ClearingPolicy.onSuccess then
      (result, Option.none)
    else if result ≠ Status.running then
      (result, some result)
    else
      (result, Option.none)

/-- WaitForBlackboardVariable.initialise (lines 431-438): the cache is cleared
exactly under the ON_INITIALISE policy. -/
def WaitForBlackboardVariable_initialise (cfg : CheckConfig)
    (matching_result : Option Status) : Option Status :=
  if cfg.clearing_policy = ClearingPolicy.onInitialise then Option.none
  else matching_result

/-- WaitForBlackboardVariable.terminate (lines 473-479): the cache is cleared
exactly when the new status is INVALID. -/
def WaitForBlackboardVariable_terminate (new_status : Status)
    (matching_result : Option Status) : Option Status :=
  if new_status = Status.invalid then Option.none else matching_result

/-- Result of `cPickle.dumps(d, -1)` on a Python dict.  Pickle serialises the
dict's items in the dict's iteration order, which for a CPython 2 string-keyed
dict is hash-slot order — a function of the keys themselves, not of insertion
order — and encodes each value with type-specific opcodes, so `True` and `1`
serialise differently although they compare equal.  The bytes are therefore
determined by, and injectively encode, the key-canonical item list of the
dict. -/
structure Digest : Type where
  rep : List (String × PyValue)
deriving DecidableEq

/-- Lexicographic comparison of character lists by code point, the
kernel-evaluable order used to canonicalise dict items by key. -/
def charListLt : List Char → List Char → Bool
  | [], [] => false
  | [], _ :: _ => true
  | _ :: _, [] => false
  | c :: cs, d :: ds =>
    if c.toNat < d.toNat then true
    else if d.toNat < c.toNat then false
    else charListLt cs ds

/-- Total order on dict keys, lexicographic on the underlying characters. -/
def keyLt (a b : String) : Bool :=
  charListLt a.data b.data

/-- Ordered insertion of one dict item by key; items with smaller keys stay
in front, an equal key keeps earlier-inserted items first. -/
def insertByKey (p : String × PyValue) : List (String × PyValue) → List (String × PyValue)
  | [] => [p]
  | q :: rest => if keyLt p.1 q.1 then p :: q :: rest else q :: insertByKey p rest

/-- The key-canonical item list of a dict: the items arranged in key order,
which is what the dict's hash-slot iteration hands to the pickler regardless
of insertion order. -/
def canonicalItems (d : List (String × PyValue)) : List (String × PyValue) :=
  d.foldl (fun acc p => insertByKey p acc) []

/-- cPickle.dumps on a blackboard-style dict (protocol -1), as used by
SubBlackboard.is_changed and ROSBlackboard.is_changed: the pickle bytes of
the key-canonical item sequence, type-sensitive in the values. -/
def dumps (d : List (String × PyValue)) : Digest :=
  Digest.mk (canonicalItems d)

/-- Value held by `cached_dict` / `cached_blackboard_dict`: the field starts
life as the empty dict `{}` (lines 127 and 174) and is overwritten with pickle
bytes on every change check, so both shapes occur and are compared with
Python's `!=`, under which a bytes value never equals a dict. -/
inductive CacheVal : Type where
  | pyDict (d : List (String × PyValue))
  | pyBytes (p : Digest)
deriving DecidableEq

/-- Change check shared by SubBlackboard.is_changed (lines 142-148) and
ROSBlackboard.is_changed (lines 229-233): pickle the current dict, compare to
the cached value with `!=`, store the new pickle. -/
def is_changed_core (cached : CacheVal) (dict : List (String × PyValue)) :
    Bool × CacheVal :=
  let current := CacheVal.pyBytes (dumps dict)
  (decide (current ≠ cached), current)

/-- SubBlackboard state: topic name, the watched attribute paths, the
persistently mutated `self.dict` of resolved values, and the change cache.
The publisher handle is external transport and carries no model state. -/
structure SubBlackboard : Type where
  topic_name : String
  attrs : List String
  dict : List (String × PyValue)
  cached_dict : CacheVal
deriving DecidableEq

/-- SubBlackboard.__init__ (lines 122-128): both `self.dict` and
`self.cached_dict` start as the empty dict. -/
def SubBlackboard_init (topic_name : String) (attrs : List String) : SubBlackboard :=
  SubBlackboard.mk topic_name attrs [] (CacheVal.pyDict [])

/-- Loop body of SubBlackboard.update_sub_blackboard (lines 130-140): each
attr that resolves against the blackboard overwrites its entry of
`self.dict`; an `AttributeError` is swallowed and the dict left untouched. -/
def update_sub_blackboard_go (bb : Store) :
    List String → List (String × PyValue) → List (String × PyValue)
  | [], d => d
  | attr :: rest, d =>
    update_sub_blackboard_go bb rest
      (match subAttrResolve bb attr with
       | some v => storeSet d attr v
       | Option.none => d)

/-- SubBlackboard.update_sub_blackboard applied to the whole state. -/
def SubBlackboard_update (bb : Store) (sb : SubBlackboard) : SubBlackboard :=
  { sb with dict := update_sub_blackboard_go bb sb.attrs sb.dict }

/-- SubBlackboard.is_changed (lines 142-148): refresh the dict, pickle it,
compare to the cache, store the new pickle, return the comparison. -/
def SubBlackboard_is_changed (bb : Store) (sb : SubBlackboard) :
    Bool × SubBlackboard :=
  let sb' := SubBlackboard_update bb sb
  let r := is_changed_core sb'.cached_dict sb'.dict
  (r.1, { sb' with cached_dict := r.2 })

/-- ROSBlackboard.is_changed (lines 229-233): the root blackboard's own
`__dict__` goes through the same pickle-and-compare cycle against
`cached_blackboard_dict`. -/
def ROSBlackboard_is_changed (bb : Store) (cached : CacheVal) : Bool × CacheVal :=
  is_changed_core cached bb

/-- A registered watch as ROSBlackboard keeps it in `self.sub_blackboards`;
for registration bookkeeping only the topic name and attrs matter. -/
structure SubWatch : Type where
  topic_name : String
  attrs : List String
deriving DecidableEq

/-- ROSBlackboard.initialize_sub_blackboard (lines 211-219).  `attrs` of
Python list type is modelled as `some`, any non-list argument as `none` (the
`isinstance` guard).  A falsy topic name (absent or empty string) is replaced
by the generated `"sub_blackboard_" + str(len(self.sub_blackboards))`; the
watch is then appended unconditionally and the (possibly generated) name
returned.  With a non-list `attrs` nothing is registered and the argument is
returned as it came in. -/
def initialize_sub_blackboard (subs : List SubWatch) (attrs : Option (List String))
    (topic_name : Option String) : List SubWatch × Option String :=
  match attrs with
  | Option.none => (subs, topic_name)
  | some as =>
    let tn := match topic_name with
      | Option.none => "sub_blackboard_" ++ toString subs.length
      | some s => if s = "" then "sub_blackboard_" ++ toString subs.length else s
    (subs ++ [SubWatch.mk tn as], some tn)

/-- ROSBlackboard.shutdown_sub_blackboard (lines 221-227): delete the first
watch whose topic name matches and return True, else False. -/
def shutdown_sub_blackboard : List SubWatch → String → List SubWatch × Bool
  | [], _ => ([], false)
  | s :: rest, t =>
    if s.topic_name = t then (rest, true)
    else
      let r := shutdown_sub_blackboard rest t
      (s :: r.1, r.2)

/-- Values as ROSBlackboard.get_nested_keys walks them.  Python's reference
semantics lets an object's attribute graph contain cycles, so objects live in
a heap and refer to each other by index; the primitive leaf types of the
`isinstance` guard (bool, list, str, int, float) and callables are terminal. -/
inductive HVal : Type where
  | hbool (b : Bool)
  | hint (n : Int)
  | hfloat
  | hstr (s : String)
  | hlist
  | hcallable
  | hobj (ref : Nat)
deriving DecidableEq

/-- Heap of objects: `objs.get r` is the list of discoverable attributes of
object `r` (the data attributes that `dir(type(v))` exposes, in order). -/
abbrev Heap := List (List (String × HVal))

/-- Python `callable(value)` on a stored value. -/
def isCallable : HVal → Bool
  | .hcallable => true
  | _ => false

/-- Python `attr.startswith("_")`. -/
def startsWithUnderscore (s : String) : Bool :=
  match s.data with
  | '_' :: _ => true
  | _ => false

/-- Python `attr.isupper()`: some cased character, and every cased character
uppercase. -/
def attrIsUpper (s : String) : Bool :=
  s.data.any Char.isAlpha && s.data.all (fun c => !c.isAlpha || c.isUpper)

/-- The `isinstance(v, (bool, list, str, int, float))` guard of
get_nested_keys. -/
def isPrimitiveLeaf : HVal → Bool
  | .hbool _ => true
  | .hint _ => true
  | .hfloat => true
  | .hstr _ => true
  | .hlist => true
  | .hcallable => false
  | .hobj _ => false

/-- Recursive helper `inner(v, k)` of ROSBlackboard.get_nested_keys (lines
195-203), instrumented with fuel because the source recursion keeps no
visited set: for each discoverable attribute that passes the underscore,
callable and uppercase filters, the path is appended and the attribute's
value recursed into.  `none` means the fuel ran out before the walk finished;
the source, having no such bound, would still be recursing. -/
def innerF (h : Heap) (fuel : Nat) (v : HVal) (k : String) : Option (List String) :=
  match fuel with
  | 0 => Option.none
  | Nat.succ n =>
    if isPrimitiveLeaf v then some []
    else
      match v with
      | .hobj r =>
        (h.getD r []).foldlM
          (fun acc p =>
            if startsWithUnderscore p.1 || isCallable p.2 || attrIsUpper p.1 then
              some acc
            else
              match innerF h n p.2 (k ++ "/" ++ p.1) with
              | Option.none => Option.none
              | some sub => some (acc ++ (k ++ "/" ++ p.1) :: sub))
          []
      | _ => some []

/-- ROSBlackboard.get_nested_keys (lines 192-209) over a blackboard whose
values live in the heap: every top-level variable contributes its name and
then its nested expansion.  The source iterates keys in sorted order; the
order of keys does not affect whether the walk terminates, which is what this
model is used for. -/
def get_nested_keysF (h : Heap) (bb : List (String × HVal)) (fuel : Nat) :
    Option (List String) :=
  bb.foldlM
    (fun acc p =>
      match innerF h fuel p.2 p.1 with
      | Option.none => Option.none
      | some sub => some (acc ++ p.1 :: sub))
    []

/-- States of a CheckBlackboardVariable instance reachable through its
lifecycle: the constructor starts with no cached result (line 344), and every
later state arises from update, initialise or terminate against some
blackboard contents. -/
inductive CheckReach (cfg : CheckConfig) : Option Status → Prop where
  | init : CheckReach cfg Option.none
  | upd (bb : Store) (m : Option Status) : CheckReach cfg m →
      CheckReach cfg (CheckBlackboardVariable_update bb cfg m).2
  | ini (m : Option Status) : CheckReach cfg m →
      CheckReach cfg (CheckBlackboardVariable_initialise cfg m)
  | term (ns : Status) (m : Option Status) : CheckReach cfg m →
      CheckReach cfg (CheckBlackboardVariable_terminate ns m)

/-- States of a WaitForBlackboardVariable instance reachable through its
lifecycle: the constructor starts with no cached result (line 429), and every
later state arises from update, initialise or terminate against some
blackboard contents. -/
inductive WaitReach (cfg : CheckConfig) : Option Status → Prop where
  | init : WaitReach cfg Option.none
  | upd (bb : Store) (m : Option Status) : WaitReach cfg m →
      WaitReach cfg (WaitForBlackboardVariable_update bb cfg m).2
  | ini (m : Option Status) : WaitReach cfg m →
      WaitReach cfg (WaitForBlackboardVariable_initialise cfg m)
  | term (ns : Status) (m : Option Status) : WaitReach cfg m →
      WaitReach cfg (WaitForBlackboardVariable_terminate ns m)

lemma storeLookup_storeSet_self (bb : Store) (name : String) (v : PyValue) :
    storeLookup (storeSet bb name v) name = some v := by
  induction bb with
  | nil => simp [storeSet, storeLookup]
  | cons hd tl ih =>
    obtain ⟨k, w⟩ := hd
    by_cases h : k = name
    · subst h
      simp [storeSet, storeLookup]
    · simp [storeSet, storeLookup, h, ih]

lemma storeLookup_storeSet_ne (bb : Store) (name key : String) (v : PyValue)
    (h : key ≠ name) : storeLookup (storeSet bb name v) key = storeLookup bb key := by
  induction bb with
  | nil => simp [storeSet, storeLookup, Ne.symm h]
  | cons hd tl ih =>
    obtain ⟨k, w⟩ := hd
    by_cases hk : k = name
    · subst hk
      simp [storeSet, storeLookup, Ne.symm h]
    · simp only [storeSet, if_neg hk, storeLookup]
      by_cases hk2 : k = key <;> simp [hk2, ih]

lemma check_evaluate_cases (bb : Store) (cfg : CheckConfig) :
    check_evaluate bb cfg = Status.success ∨ check_evaluate bb cfg = Status.failure := by
  unfold check_evaluate
  cases attrgetterGet bb cfg.variable_name with
  | none => right; rfl
  | some v =>
    cases cfg.expected_value with
    | none => left; rfl
    | some e => by_cases h : cfg.comparison_operator v e <;> simp [h]

lemma wait_evaluate_cases (bb : Store) (cfg : CheckConfig) :
    wait_evaluate bb cfg = Status.success ∨ wait_evaluate bb cfg = Status.running := by
  unfold wait_evaluate
  cases storeLookup bb cfg.variable_name with
  | none => right; rfl
  | some v =>
    cases cfg.expected_value with
    | none => left; rfl
    | some e => by_cases h : cfg.comparison_operator v e <;> simp [h]

lemma CheckBlackboardVariable_update_none_fst (bb : Store) (cfg : CheckConfig) :
    (CheckBlackboardVariable_update bb cfg Option.none).1 = check_evaluate bb cfg := by
  unfold CheckBlackboardVariable_update
  dsimp only
  split <;> rfl

lemma WaitForBlackboardVariable_update_none_fst (bb : Store) (cfg : CheckConfig) :
    (WaitForBlackboardVariable_update bb cfg Option.none).1 = wait_evaluate bb cfg := by
  unfold WaitForBlackboardVariable_update
  dsimp only
  split
  · rfl
  · split <;> rfl

lemma check_reach_onSuccess (cfg : CheckConfig)
    (hpol : cfg.clearing_policy = ClearingPolicy.onSuccess) :
    ∀ m, CheckReach cfg m → m = Option.none ∨ m = some Status.failure := by
  intro m h
  induction h with
  | init => left; rfl
  | upd bb m' h' ih =>
    rcases ih with h0 | h0
    · subst h0
      rcases check_evaluate_cases bb cfg with he | he <;>
        simp [CheckBlackboardVariable_update, he, hpol]
    · subst h0
      right; rfl
  | ini m' h' ih =>
    unfold CheckBlackboardVariable_initialise
    split
    · left; rfl
    · exact ih
  | term ns m' h' ih =>
    unfold CheckBlackboardVariable_terminate
    split
    · left; rfl
    · exact ih

lemma wait_reach_cases (cfg : CheckConfig) :
    ∀ m, WaitReach cfg m → m = Option.none ∨ m = some Status.success := by
  intro m h
  induction h with
  | init => left; rfl
  | upd bb m' h' ih =>
    rcases ih with h0 | h0
    · subst h0
      rcases wait_evaluate_cases bb cfg with he | he
      · by_cases hp : cfg.clearing_policy = ClearingPolicy.onSuccess
        · left; simp [WaitForBlackboardVariable_update, he, hp]
        · right; simp [WaitForBlackboardVariable_update, he, hp]
      · left; simp [WaitForBlackboardVariable_update, he]
    · subst h0
      right; rfl
  | ini m' h' ih =>
    unfold WaitForBlackboardVariable_initialise
    split
    · left; rfl
    · exact ih
  | term ns m' h' ih =>
    unfold WaitForBlackboardVariable_terminate
    split
    · left; rfl
    · exact ih

lemma wait_reach_onSuccess (cfg : CheckConfig)
    (hpol : cfg.clearing_policy = ClearingPolicy.onSuccess) :
    ∀ m, WaitReach cfg m → m = Option.none := by
  intro m h
  induction h with
  | init => rfl
  | upd bb m' h' ih =>
    subst ih
    rcases wait_evaluate_cases bb cfg with he | he <;>
      simp [WaitForBlackboardVariable_update, he, hpol]
  | ini m' h' ih =>
    subst ih
    unfold WaitForBlackboardVariable_initialise
    split <;> rfl
  | term ns m' h' ih =>
    subst ih
    unfold WaitForBlackboardVariable_terminate
    split <;> rfl

lemma update_sub_blackboard_go_lookup (bb : Store) (attrs : List String)
    (d : List (String × PyValue)) (attr : String) :
    storeLookup (update_sub_blackboard_go bb attrs d) attr =
      match subAttrResolve bb attr with
      | some v => if attr ∈ attrs then some v else storeLookup d attr
      | Option.none => storeLookup d attr := by
  induction attrs generalizing d with
  | nil => cases h : subAttrResolve bb attr <;> simp [update_sub_blackboard_go, h]
  | cons a rest ih =>
    by_cases haa : attr = a
    · subst haa
      cases hr : subAttrResolve bb attr with
      | none =>
        simp only [update_sub_blackboard_go, hr]
        rw [ih]
        simp [hr]
      | some v =>
        simp only [update_sub_blackboard_go, hr]
        rw [ih]
        simp only [hr, List.mem_cons, true_or, if_true]
        by_cases hm : attr ∈ rest <;>
          simp [hm, storeLookup_storeSet_self]
    · have hmem : (attr ∈ a :: rest) = (attr ∈ rest) := by
        simp [List.mem_cons, haa]
      cases hra : subAttrResolve bb a with
      | none =>
        simp only [update_sub_blackboard_go, hra]
        rw [ih]
        cases hr : subAttrResolve bb attr <;> simp [hmem]
      | some v =>
        simp only [update_sub_blackboard_go, hra]
        rw [ih]
        cases hr : subAttrResolve bb attr <;>
          simp [hmem, storeLookup_storeSet_ne _ _ _ _ haa]

lemma shutdown_not_found (subs : List SubWatch) (t : String)
    (h : t ∉ subs.map SubWatch.topic_name) :
    shutdown_sub_blackboard subs t = (subs, false) := by
  induction subs with
  | nil => rfl
  | cons s rest ih =>
    simp only [List.map_cons, List.mem_cons] at h
    push_neg at h
    simp [shutdown_sub_blackboard, Ne.symm h.1, ih h.2]

lemma shutdown_found (subs : List SubWatch) (t : String)
    (h : t ∈ subs.map SubWatch.topic_name) :
    (shutdown_sub_blackboard subs t).2 = true ∧
    (shutdown_sub_blackboard subs t).1.length + 1 = subs.length := by
  induction subs with
  | nil => simp at h
  | cons s rest ih =>
    by_cases hs : s.topic_name = t
    · simp [shutdown_sub_blackboard, hs]
    · simp only [List.map_cons, List.mem_cons] at h
      rcases h with h | h
      · exact absurd h.symm hs
      · simp only [shutdown_sub_blackboard, if_neg hs]
        exact ⟨(ih h).1, by simp [(ih h).2]⟩

/-- C1: for a CheckBlackboardVariable with clearing policy ON_SUCCESS, a
SUCCESS outcome of update is never cached: in any reachable state, when
update returns SUCCESS the stored matching_result is left unset, so the next
update (with no intervening initialise) evaluates freshly against the store —
in particular, if the checked variable no longer resolves, that next update
returns FAILURE rather than a stale SUCCESS. -/
theorem check_on_success_never_caches_success (bb bb2 : Store) (cfg : CheckConfig)
    (m : Option Status)
    (hpol : cfg.clearing_policy = ClearingPolicy.onSuccess)
    (hreach : CheckReach cfg m)
    (hsucc : (CheckBlackboardVariable_update bb cfg m).1 = Status.success) :
    (CheckBlackboardVariable_update bb cfg m).2 = Option.none ∧
    (CheckBlackboardVariable_update bb2 cfg
        (CheckBlackboardVariable_update bb cfg m).2).1 = check_evaluate bb2 cfg ∧
    (attrgetterGet bb2 cfg.variable_name = Option.none →
      (CheckBlackboardVariable_update bb2 cfg
          (CheckBlackboardVariable_update bb cfg m).2).1 = Status.failure) := by
  rcases check_reach_onSuccess cfg hpol m hreach with hm | hm
  · subst hm
    have h2 : (CheckBlackboardVariable_update bb cfg Option.none).2 = Option.none := by
      rcases check_evaluate_cases bb cfg with he | he
      · simp [CheckBlackboardVariable_update, he, hpol]
      · exfalso
        simp [CheckBlackboardVariable_update, he] at hsucc
    refine ⟨h2, ?_, ?_⟩
    · rw [h2]
      exact CheckBlackboardVariable_update_none_fst bb2 cfg
    · intro hd
      rw [h2, CheckBlackboardVariable_update_none_fst bb2 cfg]
      unfold check_evaluate
      rw [hd]
  · exfalso
    subst hm
    simp [CheckBlackboardVariable_update] at hsucc

/-- Concrete run of C1, Scenario B of the specification: the store holds
speed=5, the Check succeeds on tick one, the variable is deleted, and tick
two re-evaluates to FAILURE. -/
def cfgC1 : CheckConfig :=
  CheckConfig.mk "speed" (some (PyValue.pyInt 5)) (fun a b => decide (a = b))
    ClearingPolicy.onSuccess

/-- Witness for C1 at the Scenario B input. -/
theorem check_on_success_never_caches_success_witness :
    (CheckBlackboardVariable_update [("speed", PyValue.pyInt 5)] cfgC1 Option.none).2
        = Option.none ∧
    (CheckBlackboardVariable_update [] cfgC1
        (CheckBlackboardVariable_update [("speed", PyValue.pyInt 5)] cfgC1
          Option.none).2).1 = check_evaluate [] cfgC1 ∧
    (CheckBlackboardVariable_update [] cfgC1
        (CheckBlackboardVariable_update [("speed", PyValue.pyInt 5)] cfgC1
          Option.none).2).1 = Status.failure :=
  have h := check_on_success_never_caches_success [("speed", PyValue.pyInt 5)] [] cfgC1
    Option.none rfl CheckReach.init (by decide)
  ⟨h.1, h.2.1, h.2.2 (by decide)⟩

/-- C2: in every reachable state of a WaitForBlackboardVariable, update never
returns FAILURE, a RUNNING result is never stored in matching_result, only
SUCCESS is ever memoized, and under the ON_SUCCESS policy not even SUCCESS
is. -/
theorem wait_never_fails_never_caches_running (cfg : CheckConfig) (m : Option Status)
    (hreach : WaitReach cfg m) (bb : Store) :
    (WaitForBlackboardVariable_update bb cfg m).1 ≠ Status.failure ∧
    (WaitForBlackboardVariable_update bb cfg m).2 ≠ some Status.running ∧
    ((WaitForBlackboardVariable_update bb cfg m).2 = Option.none ∨
      (WaitForBlackboardVariable_update bb cfg m).2 = some Status.success) ∧
    (cfg.clearing_policy = ClearingPolicy.onSuccess →
      (WaitForBlackboardVariable_update bb cfg m).2 = Option.none) := by
  have h4 : cfg.clearing_policy = ClearingPolicy.onSuccess →
      (WaitForBlackboardVariable_update bb cfg m).2 = Option.none := by
    intro hp
    have hm0 := wait_reach_onSuccess cfg hp m hreach
    subst hm0
    rcases wait_evaluate_cases bb cfg with he | he <;>
      simp [WaitForBlackboardVariable_update, he, hp]
  rcases wait_reach_cases cfg m hreach with hm | hm
  · subst hm
    rcases wait_evaluate_cases bb cfg with he | he
    · by_cases hp : cfg.clearing_policy = ClearingPolicy.onSuccess
      · refine ⟨?_, ?_, ?_, h4⟩ <;> simp [WaitForBlackboardVariable_update, he, hp]
      · refine ⟨?_, ?_, ?_, h4⟩ <;> simp [WaitForBlackboardVariable_update, he, hp]
    · refine ⟨?_, ?_, ?_, h4⟩ <;> simp [WaitForBlackboardVariable_update, he]
  · subst hm
    exact ⟨by simp [WaitForBlackboardVariable_update],
      by simp [WaitForBlackboardVariable_update],
      Or.inr (by simp [WaitForBlackboardVariable_update]), h4⟩

/-- Concrete configuration for the C2 witness: a Wait on ready=true under the
ON_SUCCESS policy, ticked against an empty store from the initial state. -/
def cfgC2 : CheckConfig :=
  CheckConfig.mk "ready" (some (PyValue.pyBool true)) (fun a b => decide (a = b))
    ClearingPolicy.onSuccess

/-- Witness for C2 at a concrete input. -/
theorem wait_never_fails_never_caches_running_witness :
    (WaitForBlackboardVariable_update [] cfgC2 Option.none).1 ≠ Status.failure ∧
    (WaitForBlackboardVariable_update [] cfgC2 Option.none).2 ≠ some Status.running ∧
    ((WaitForBlackboardVariable_update [] cfgC2 Option.none).2 = Option.none ∨
      (WaitForBlackboardVariable_update [] cfgC2 Option.none).2 = some Status.success) ∧
    (WaitForBlackboardVariable_update [] cfgC2 Option.none).2 = Option.none :=
  have h := wait_never_fails_never_caches_running cfgC2 Option.none WaitReach.init []
  ⟨h.1, h.2.1, h.2.2.1, h.2.2.2 rfl⟩

/-- C3: terminate(INVALID) on a Check or Wait instance clears the cached
matching_result whatever it was, so the next update evaluates the variable
against the store afresh instead of returning a cached Status. -/
theorem terminate_invalid_forces_reevaluation (bb : Store) (ccfg wcfg : CheckConfig)
    (m m' : Option Status) :
    CheckBlackboardVariable_terminate Status.invalid m = Option.none ∧
    WaitForBlackboardVariable_terminate Status.invalid m' = Option.none ∧
    (CheckBlackboardVariable_update bb ccfg
        (CheckBlackboardVariable_terminate Status.invalid m)).1 = check_evaluate bb ccfg ∧
    (WaitForBlackboardVariable_update bb wcfg
        (WaitForBlackboardVariable_terminate Status.invalid m')).1 = wait_evaluate bb wcfg := by
  have hc : CheckBlackboardVariable_terminate Status.invalid m = Option.none := by
    simp [CheckBlackboardVariable_terminate]
  have hw : WaitForBlackboardVariable_terminate Status.invalid m' = Option.none := by
    simp [WaitForBlackboardVariable_terminate]
  refine ⟨hc, hw, ?_, ?_⟩
  · rw [hc]
    exact CheckBlackboardVariable_update_none_fst bb ccfg
  · rw [hw]
    exact WaitForBlackboardVariable_update_none_fst bb wcfg

/-- C4 counterexample: nested path addressing through Blackboard.get fails.
The store binds a to an object whose field b holds 5; the claim would have
get resolve "a/b" by traversal to 5, yet get looks the name up verbatim,
misses, and returns the None sentinel — while the watch-side resolution of
the very same path succeeds, showing traversal was possible. -/
theorem get_no_nested_traversal_counterexample :
    Blackboard_get
        [("a", PyValue.obj (PyFields.cons "b" (PyValue.pyInt 5) PyFields.nil))] "a/b"
      = PyValue.pyNone ∧
    subAttrResolve
        [("a", PyValue.obj (PyFields.cons "b" (PyValue.pyInt 5) PyFields.nil))] "a/b"
      = some (PyValue.pyInt 5) ∧
    PyValue.pyNone ≠ PyValue.pyInt 5 := by decide

/-- C4 amended: Blackboard.get does not traverse nested paths.  A name
containing a separator is matched verbatim against the store's keys; when
that exact key is absent, get returns the None sentinel without raising, even
if segment-wise traversal of the name would succeed — '/'-separated traversal
is done only by the watch resolution of update_sub_blackboard. -/
theorem get_is_verbatim_lookup (bb : Store) (name a b : String)
    (fields : PyFields) (v : PyValue)
    (hsep : containsChar '/' name = true)
    (hsplit : splitChar '/' name = [a, b])
    (hjoin : splitChar '.' (joinChar '.' [a, b]) = [a, b])
    (hmiss : storeLookup bb name = Option.none)
    (htop : storeLookup bb a = some (PyValue.obj fields))
    (hfield : PyFields.lookup fields b = some v) :
    Blackboard_get bb name = PyValue.pyNone ∧ subAttrResolve bb name = some v := by
  constructor
  · simp [Blackboard_get, hmiss]
  · rw [subAttrResolve, if_pos hsep, hsplit, attrgetterGet, hjoin]
    simp [htop, getattrF, hfield]

/-- Witness for the amended C4 at the concrete two-segment path. -/
theorem get_is_verbatim_lookup_witness :
    Blackboard_get
        [("a", PyValue.obj (PyFields.cons "b" (PyValue.pyInt 7) PyFields.nil))] "a/b"
      = PyValue.pyNone ∧
    subAttrResolve
        [("a", PyValue.obj (PyFields.cons "b" (PyValue.pyInt 7) PyFields.nil))] "a/b"
      = some (PyValue.pyInt 7) :=
  get_is_verbatim_lookup
    [("a", PyValue.obj (PyFields.cons "b" (PyValue.pyInt 7) PyFields.nil))]
    "a/b" "a" "b" (PyFields.cons "b" (PyValue.pyInt 7) PyFields.nil) (PyValue.pyInt 7)
    (by decide) (by decide) (by decide) (by decide) (by decide) (by decide)

/-- C5: set with overwrite protection.  After set(name, v1), a second
set(name, v2, overwrite=False) returns False and leaves the whole store
untouched, with get(name) still v1; on a name absent from the store,
set(name, v, overwrite=False) writes the value and returns True. -/
theorem set_overwrite_false_protects (bb : Store) (name : String) (v1 v2 v : PyValue) :
    Blackboard_set (Blackboard_set bb name v1 true).1 name v2 false
        = ((Blackboard_set bb name v1 true).1, false) ∧
    Blackboard_get (Blackboard_set bb name v1 true).1 name = v1 ∧
    (storeLookup bb name = Option.none →
      (Blackboard_set bb name v false).2 = true ∧
      Blackboard_get (Blackboard_set bb name v false).1 name = v) := by
  have h1 : (Blackboard_set bb name v1 true).1 = storeSet bb name v1 := by
    simp [Blackboard_set]
  have hlook : storeLookup (Blackboard_set bb name v1 true).1 name = some v1 := by
    rw [h1]
    exact storeLookup_storeSet_self bb name v1
  refine ⟨?_, ?_, ?_⟩
  · rw [Blackboard_set, if_pos]
    exact ⟨rfl, by rw [hlook]; rfl⟩
  · rw [Blackboard_get, hlook]
  · intro hmiss
    have hcond : ¬((false : Bool) = false ∧ (storeLookup bb name).isSome) := by
      rw [hmiss]
      simp
    rw [Blackboard_set, if_neg hcond]
    exact ⟨rfl, by rw [Blackboard_get, storeLookup_storeSet_self]⟩

/-- Witness for C5 at a concrete store and name. -/
theorem set_overwrite_false_protects_witness :
    Blackboard_set (Blackboard_set [] "k" (PyValue.pyInt 1) true).1 "k"
        (PyValue.pyInt 2) false = ((Blackboard_set [] "k" (PyValue.pyInt 1) true).1, false) ∧
    Blackboard_get (Blackboard_set [] "k" (PyValue.pyInt 1) true).1 "k" = PyValue.pyInt 1 ∧
    ((Blackboard_set [] "k" (PyValue.pyInt 3) false).2 = true ∧
      Blackboard_get (Blackboard_set [] "k" (PyValue.pyInt 3) false).1 "k" = PyValue.pyInt 3) :=
  have h := set_overwrite_false_protects [] "k" (PyValue.pyInt 1) (PyValue.pyInt 2)
    (PyValue.pyInt 3)
  ⟨h.1, h.2.1, h.2.2 (by decide)⟩

/-- C6 counterexample: a stale cached value survives pollOne.  A watch on
path x is polled while the store holds x=1, the variable is then deleted, and
a second poll leaves the dict entry x=1 in place although the path no longer
resolves — the claim would have cachedValues hold exactly the currently
resolving paths. -/
theorem pollOne_stale_entry_counterexample :
    subAttrResolve [] "x" = Option.none ∧
    storeLookup
        (SubBlackboard_update []
          (SubBlackboard_update [("x", PyValue.pyInt 1)]
            (SubBlackboard_init "t" ["x"]))).dict "x"
      = some (PyValue.pyInt 1) := by decide

/-- C6 amended: after update_sub_blackboard, each watched path that currently
resolves holds its current store value in the dict; a path that does not
resolve is not added — but neither is its previous entry removed, so a value
cached by an earlier poll persists; keys outside the watch list are
untouched. -/
theorem pollOne_cached_values (bb : Store) (sb : SubBlackboard) (attr : String) :
    storeLookup (SubBlackboard_update bb sb).dict attr =
      match subAttrResolve bb attr with
      | some v => if attr ∈ sb.attrs then some v else storeLookup sb.dict attr
      | Option.none => storeLookup sb.dict attr := by
  unfold SubBlackboard_update
  exact update_sub_blackboard_go_lookup bb sb.attrs sb.dict attr

/-- C7 counterexample: registration does not fail fast and generated names
can collide.  Registering with an empty attrs list still creates a watch;
and after register, register, unregister-of-the-first, a third registration
with the name omitted generates "sub_blackboard_1", the name of the
surviving active watch, and appends the duplicate anyway. -/
theorem register_no_fail_fast_counterexample :
    (initialize_sub_blackboard [] (some []) (some "t")).1 = [SubWatch.mk "t" []] ∧
    ((shutdown_sub_blackboard
        (initialize_sub_blackboard
          (initialize_sub_blackboard [] (some ["a"]) Option.none).1
          (some ["b"]) Option.none).1
        "sub_blackboard_0").1.map SubWatch.topic_name = ["sub_blackboard_1"] ∧
      (initialize_sub_blackboard
        (shutdown_sub_blackboard
          (initialize_sub_blackboard
            (initialize_sub_blackboard [] (some ["a"]) Option.none).1
            (some ["b"]) Option.none).1
          "sub_blackboard_0").1
        (some ["c"]) Option.none).1.map SubWatch.topic_name
        = ["sub_blackboard_1", "sub_blackboard_1"]) := by decide

/-- C7 amended: register never rejects a malformed configuration — with a
list attrs it always appends exactly one watch and returns its topic name,
even when attrs is empty or the supplied name duplicates an active watch; an
omitted topic name is generated as "sub_blackboard_" followed by the current
watch count (distinct from active names only while no watch has ever been
removed); a non-list attrs registers nothing and echoes the argument back.
unregister removes the first watch carrying the topic name and reports
whether one was found. -/
theorem register_appends_unregister_removes (subs : List SubWatch) (as : List String)
    (t : String) (tn : Option String) :
    initialize_sub_blackboard subs (some as) Option.none
        = (subs ++ [SubWatch.mk ("sub_blackboard_" ++ toString subs.length) as],
           some ("sub_blackboard_" ++ toString subs.length)) ∧
    (t ≠ "" → initialize_sub_blackboard subs (some as) (some t)
        = (subs ++ [SubWatch.mk t as], some t)) ∧
    initialize_sub_blackboard subs Option.none tn = (subs, tn) ∧
    (t ∉ subs.map SubWatch.topic_name → shutdown_sub_blackboard subs t = (subs, false)) ∧
    (t ∈ subs.map SubWatch.topic_name →
      (shutdown_sub_blackboard subs t).2 = true ∧
      (shutdown_sub_blackboard subs t).1.length + 1 = subs.length) := by
  refine ⟨rfl, ?_, rfl, shutdown_not_found subs t, shutdown_found subs t⟩
  intro ht
  simp [initialize_sub_blackboard, ht]

/-- Witness for the amended C7 at concrete registries. -/
theorem register_appends_unregister_removes_witness :
    initialize_sub_blackboard [] (some ["a"]) Option.none
        = ([SubWatch.mk ("sub_blackboard_" ++ toString (0 : Nat)) ["a"]],
           some ("sub_blackboard_" ++ toString (0 : Nat))) ∧
    initialize_sub_blackboard [] (some ["a"]) (some "t")
        = ([SubWatch.mk "t" ["a"]], some "t") ∧
    shutdown_sub_blackboard [SubWatch.mk "t" ["a"]] "zz"
        = ([SubWatch.mk "t" ["a"]], false) ∧
    ((shutdown_sub_blackboard [SubWatch.mk "t" ["a"]] "t").2 = true ∧
      (shutdown_sub_blackboard [SubWatch.mk "t" ["a"]] "t").1.length + 1 = 1) :=
  have h1 := register_appends_unregister_removes [] ["a"] "t" Option.none
  have h2 := register_appends_unregister_removes [SubWatch.mk "t" ["a"]] ["x"] "zz"
    Option.none
  have h3 := register_appends_unregister_removes [SubWatch.mk "t" ["a"]] ["x"] "t"
    Option.none
  ⟨h1.1, h1.2.1 (by decide), h2.2.2.2.1 (by decide), h3.2.2.2.2 (by decide)⟩

lemma innerF_cycle (fuel : Nat) :
    ∀ k, innerF [[("a", HVal.hobj 0)]] fuel (HVal.hobj 0) k = Option.none := by
  induction fuel with
  | zero =>
    intro k
    rfl
  | succ n ih =>
    intro k
    have hflt : (startsWithUnderscore "a" || isCallable (HVal.hobj 0) || attrIsUpper "a")
        = false := by decide
    simp [innerF, isPrimitiveLeaf, List.getD, List.foldlM, hflt, ih (k ++ "/" ++ "a")]

/-- C9: get_nested_keys does not terminate on a cyclic object graph.  On the
one-variable store x bound to an object whose sole discoverable attribute a
refers back to the object itself, the recursion of inner re-enters the same
object forever: no finite recursion budget completes the walk (every fuel
bound is exhausted), because the source keeps no visited set. -/
theorem get_nested_keys_cycle_diverges (fuel : Nat) :
    innerF [[("a", HVal.hobj 0)]] fuel (HVal.hobj 0) "x" = Option.none ∧
    get_nested_keysF [[("a", HVal.hobj 0)]] [("x", HVal.hobj 0)] fuel = Option.none := by
  refine ⟨innerF_cycle fuel "x", ?_⟩
  simp [get_nested_keysF, List.foldlM, innerF_cycle fuel "x"]

/-- C10: the first change check after construction always reports changed,
for a fresh SubBlackboard as well as for the registry's root-store cache: the
cache starts as the empty dict, which Python's inequality distinguishes from
every pickle bytes value, so the first poll with a subscriber publishes even
when the watched subset is empty or the store never mutated. -/
theorem first_change_check_always_true (bb : Store) (topic : String)
    (attrs : List String) :
    (SubBlackboard_is_changed bb (SubBlackboard_init topic attrs)).1 = true ∧
    (ROSBlackboard_is_changed bb (CacheVal.pyDict [])).1 = true := by
  constructor
  · simp [SubBlackboard_is_changed, SubBlackboard_init, SubBlackboard_update,
      is_changed_core]
  · simp [ROSBlackboard_is_changed, is_changed_core]

end PyTrees
